import Mathlib

/-!
Shallow embedding of the llama-manager supervisor (Go) and proofs about it.

The embedding mirrors, definition by definition, the Go source:
  - the download manager and its single-slot job (config.go, download unit);
  - the configuration store with settings update and instance mutation
    (config.go);
  - the instance argument-vector construction (instance.go, Instance.Start);
  - the supervisor restart loop decision logic (manager.go, runWithRestart);
  - the fixed-capacity ring log buffer (instance.go, ringBuffer);
  - instance Stop (instance.go, Instance.Stop).

Statuses and states are kept as the strings the source uses.  OS-level
effects (process spawn, kill, file writes) are abstracted: spawn outcomes
become explicit `Except` parameters, a kill becomes a recorded boolean
effect, and the standard-library duration parser becomes a function
parameter `String → Option Int` (nanoseconds), instantiated in witnesses
by a small model of it.
-/

namespace LlamaMgr

/-! ## Download job (src/config.go, download unit) -/

/-- One download job slot.  Mirrors Go `DownloadJob`: repo, quant, a status
string among "downloading", "done", "failed", "stopped", the captured log
lines, and whether a started child process handle is present
(`cmd != nil && cmd.Process != nil`). -/
structure DownloadJob where
  repo : String
  quant : String
  status : String
  logs : List String
  hasProc : Bool
deriving DecidableEq, Repr

/-- Go `DownloadJob.addLog`: append a line, keeping only the last 500. -/
def addLog (logs : List String) (line : String) : List String :=
  let l := logs ++ [line]
  if l.length > 500 then l.drop (l.length - 500) else l

/-- Go download manager state: the child binary path and the single slot. -/
structure DownloadManager where
  serverBin : String
  active : Option DownloadJob
deriving DecidableEq, Repr

/-- Model string passed to `-hf`: `repo` or `repo:quant` (Go
`DownloadManager.Start`, model construction). -/
def downloadModelArg (repo quant : String) : String :=
  if quant ≠ "" then repo ++ ":" ++ quant else repo

/-- Exit observer spawned by `DownloadManager.Start` (the `cmd.Wait`
goroutine): if the status is already "stopped" leave the job unchanged;
otherwise on a non-nil exit error set status "failed" and log the error,
and on a nil exit error set status "done" and log completion.  `exitErr`
is the result of `cmd.Wait`. -/
def exitObserve (job : DownloadJob) (exitErr : Option String) : DownloadJob :=
  if job.status = "stopped" then job
  else
    match exitErr with
    | some e => { job with status := "failed", logs := addLog job.logs ("process exited: " ++ e) }
    | none => { job with status := "done", logs := addLog job.logs "download complete" }

/-- Go `DownloadManager.Start`.  The busy check happens first; then the
model string and argument vector are built and the child is spawned
(pipe creation and `cmd.Start`, abstracted into the single `spawn`
parameter); on success the slot is replaced by a fresh job with status
"downloading" and empty logs.  Returns the new manager state and the
argument vector handed to the child.  `dmStartSpawn` is the part after
the busy check: build the model string and argument vector, spawn, and
on success replace the slot. -/
def dmStartSpawn (dm : DownloadManager) (repo quant : String)
    (spawn : Except String Unit) : Except String (DownloadManager × List String) :=
  let model := downloadModelArg repo quant
  let args := ["-hf", model, "--port", "0"]
  match spawn with
  | Except.error e => Except.error e
  | Except.ok _ =>
    Except.ok ({ dm with active := some ⟨repo, quant, "downloading", [], true⟩ }, args)

/-- Go `DownloadManager.Start`: the busy check, then `dmStartSpawn`. -/
def dmStart (dm : DownloadManager) (repo quant : String)
    (spawn : Except String Unit) : Except String (DownloadManager × List String) :=
  match dm.active with
  | some j =>
    if j.status = "downloading" then
      Except.error ("download already in progress: " ++ j.repo ++ ":" ++ j.quant)
    else dmStartSpawn dm repo quant spawn
  | none => dmStartSpawn dm repo quant spawn

/-- Go `DownloadManager.Stop`: if there is no active job or it has no
started process, return leaving everything unchanged; otherwise set the
status to "stopped" and append a log line (then kill the child,
abstracted away). -/
def dmStop (dm : DownloadManager) : DownloadManager :=
  match dm.active with
  | none => dm
  | some j =>
    if j.hasProc then
      { dm with active := some { j with status := "stopped",
                                        logs := addLog j.logs "download stopped by user" } }
    else dm

/-! ## Config store and settings (src/config.go) -/

/-- Go `InstanceConf`: one declared instance.  Optional overrides mirror
the pointer-valued fields. -/
structure InstanceConf where
  name : String
  model : String
  port : Int
  gpuIDs : List Int
  nglOverride : Option Int
  ctxOverride : Option Int
  cacheKOverride : Option String
  cacheVOverride : Option String
deriving DecidableEq, Repr

/-- Go `Config`: the global settings plus the declared instance list.
Durations are in nanoseconds, as Go `time.Duration` counts them. -/
structure Config where
  serverBin : String
  managerPort : Int
  restartDelay : Int
  maxRestarts : Int
  healthCheckInterval : Int
  gpuBackend : String
  host : String
  ngl : Int
  mainGPU : Int
  contextLength : Int
  cacheTypeK : String
  cacheTypeV : String
  instances : List InstanceConf
deriving DecidableEq, Repr

/-- Go `Settings`: the wire form taken by `UpdateSettings`, with durations
still unparsed strings. -/
structure Settings where
  serverBin : String
  managerPort : Int
  restartDelay : String
  maxRestarts : Int
  healthCheckInterval : String
  gpuBackend : String
  host : String
  ngl : Int
  mainGPU : Int
  contextLength : Int
  cacheTypeK : String
  cacheTypeV : String
deriving DecidableEq, Repr

/-- Go `Config.GPUEnvVar`: backend name to visible-devices env var. -/
def gpuEnvVar (backend : String) : String :=
  if backend = "cuda" then "CUDA_VISIBLE_DEVICES"
  else if backend = "rocm" then "HIP_VISIBLE_DEVICES"
  else if backend = "rocm_rocr" then "ROCR_VISIBLE_DEVICES"
  else if backend = "metal" then ""
  else "GGML_VK_VISIBLE_DEVICES"

/-- Backends accepted by `UpdateSettings` (Go `validBackends` map). -/
def validBackends : List String := ["vulkan", "cuda", "rocm", "rocm_rocr", "metal"]

/-- Validation block at the head of Go `Config.UpdateSettings`, performed
before any mutation, in source order. -/
def validateSettings (s : Settings) : Option String :=
  if s.maxRestarts < 0 then some "max_restarts must be >= 0"
  else if s.ngl < 0 then some "ngl must be >= 0"
  else if s.mainGPU < 0 then some "main_gpu must be >= 0"
  else if s.contextLength ≤ 0 then some "context_length must be > 0"
  else if s.gpuBackend ≠ "" ∧ s.gpuBackend ∉ validBackends then
    some "gpu_backend must be one of: vulkan, cuda, rocm, rocm_rocr"
  else none

/-- Duration-field handling inside Go `Config.UpdateSettings`: an empty
string means "leave unchanged" (`Except.ok none`); a non-empty string
must parse and be strictly positive, else the update errors out. -/
def parsePositiveDur (p : String → Option Int) (raw : String) : Except String (Option Int) :=
  if raw = "" then Except.ok none
  else
    match p raw with
    | none => Except.error "invalid duration"
    | some d => if d ≤ 0 then Except.error "duration must be > 0" else Except.ok (some d)

/-- Tail of Go `Config.UpdateSettings` after both duration fields were
handled: the remaining assignments, empty-string-guarded for string
fields and unconditional for the numeric fields, in source order. -/
def applyScalarSettings (cfg : Config) (s : Settings) : Config :=
  let c := { cfg with maxRestarts := s.maxRestarts }
  let c := if s.gpuBackend = "" then c else { c with gpuBackend := s.gpuBackend }
  let c := if s.host = "" then c else { c with host := s.host }
  let c := { c with ngl := s.ngl, mainGPU := s.mainGPU, contextLength := s.contextLength }
  let c := if s.cacheTypeK = "" then c else { c with cacheTypeK := s.cacheTypeK }
  if s.cacheTypeV = "" then c else { c with cacheTypeV := s.cacheTypeV }

/-- Conditional restart-delay assignment inside `UpdateSettings`: `none`
means the field was empty and the stored value stays. -/
def setRestartDelay (c : Config) : Option Int → Config
  | none => c
  | some d => { c with restartDelay := d }

/-- Conditional health-check-interval assignment inside `UpdateSettings`. -/
def setHealthCheck (c : Config) : Option Int → Config
  | none => c
  | some d => { c with healthCheckInterval := d }

/-- Go `Config.UpdateSettings`.  `p` stands for the standard-library
duration parser (string to nanoseconds).  Returns the error, if any,
together with the configuration as left behind by the call: Go mutates
the shared config in place, so an error raised while handling
`restart_delay` or `health_check_interval` leaves the mutations already
performed (the `server_bin` and `restart_delay` assignments) in the
store.  Persistence (`saveLocked`) is outside the pure model. -/
def updateSettings (p : String → Option Int) (cfg : Config) (s : Settings) :
    Option String × Config :=
  match validateSettings s with
  | some e => (some e, cfg)
  | none =>
    let c1 := if s.serverBin = "" then cfg else { cfg with serverBin := s.serverBin }
    match parsePositiveDur p s.restartDelay with
    | Except.error e => (some ("restart_delay: " ++ e), c1)
    | Except.ok od =>
      let c2 := setRestartDelay c1 od
      match parsePositiveDur p s.healthCheckInterval with
      | Except.error e => (some ("health_check_interval: " ++ e), c2)
      | Except.ok oh => (none, applyScalarSettings (setHealthCheck c2 oh) s)

/-- Model of the Go standard-library duration parser restricted to the
shapes exercised here: a non-empty decimal digit string followed by a
final "s" parses to that many seconds in nanoseconds; everything else is
rejected, as `time.ParseDuration` rejects strings without a valid
number-unit form. -/
def parseDurSeconds (raw : String) : Option Int :=
  let chars := raw.data
  match chars.reverse with
  | [] => none
  | u :: restRev =>
    let digits := restRev.reverse
    if u = 's' ∧ digits ≠ [] ∧ digits.all (fun c => c.isDigit) then
      some ((digits.foldl (fun acc c => acc * 10 + (c.toNat - 48)) 0 : Nat) * 1000000000)
    else none

/-- Validation performed by Go `loadConfig` after YAML decoding: the only
check is that `server_bin` is non-empty; nothing else about the decoded
configuration is inspected. -/
def loadConfigCheck (cfg : Config) : Except String Config :=
  if cfg.serverBin = "" then Except.error "server_bin is required" else Except.ok cfg

/-- Duplicate scan of Go `Config.AddInstance`: walk the existing list in
order; a name collision errors first, then a port collision. -/
def findConflict : List InstanceConf → InstanceConf → Option String
  | [], _ => none
  | e :: rest, ic =>
    if e.name = ic.name then some ("duplicate instance name: " ++ ic.name)
    else if e.port = ic.port then some "duplicate port"
    else findConflict rest ic

/-- Go `Config.AddInstance`: reject on duplicate name or port, else append
the new instance (persistence abstracted away). -/
def addInstance (cfg : Config) (ic : InstanceConf) : Except String Config :=
  match findConflict cfg.instances ic with
  | some e => Except.error e
  | none => Except.ok { cfg with instances := cfg.instances ++ [ic] }

/-- Inner loop of Go `Config.UpdateInstance`: scan all positions `j`
starting at index `start`, skipping the updated index `i`, checking the
port clash before the name clash as the source does. -/
def updConflict : List InstanceConf → Nat → Nat → InstanceConf → Option String
  | [], _, _, _ => none
  | e :: rest, j, i, ic =>
    if j ≠ i ∧ e.port = ic.port then some "duplicate port"
    else if j ≠ i ∧ e.name = ic.name then some ("duplicate instance name: " ++ ic.name)
    else updConflict rest (j + 1) i ic

/-- Go `Config.UpdateInstance`: find the first instance with the given
name, check the replacement against every other entry, then overwrite in
place. -/
def updateInstance (cfg : Config) (name : String) (ic : InstanceConf) :
    Except String Config :=
  match cfg.instances.findIdx? (fun e => e.name = name) with
  | none => Except.error ("instance " ++ name ++ " not found")
  | some i =>
    match updConflict cfg.instances 0 i ic with
    | some e => Except.error e
    | none => Except.ok { cfg with instances := cfg.instances.set i ic }

/-! ## Instance argument vector (src/instance.go, Instance.Start) -/

/-- Model of Go `strings.HasPrefix` on the character sequence. -/
def hasPrefixStr (s pre : String) : Bool :=
  s.data.take pre.data.length = pre.data

/-- Model of Go `strings.HasSuffix` on the character sequence. -/
def hasSuffixStr (s suf : String) : Bool :=
  decide (s.data.drop (s.data.length - suf.data.length) = suf.data
          ∧ suf.data.length ≤ s.data.length)

/-- Go `strings.Join(parts, ",")`. -/
def joinComma : List String → String
  | [] => ""
  | [x] => x
  | x :: rest => x ++ "," ++ joinComma rest

/-- Argument-vector construction in Go `Instance.Start` (the `args` value
handed to `exec.Command`), with the effective per-instance settings
already resolved and the `fmt.Sprintf("%.2f", 1/N)` ratio formatting
abstracted as `fmtRatio`.  `gpuEnv` is the backend's visible-devices env
var name (`Config.GPUEnvVar`), empty for metal. -/
def instArgs (fmtRatio : Nat → String) (model : String) (port : Int) (host : String)
    (ngl ctxLen mainGPU : Int) (cacheK cacheV : String) (gpuEnv : String)
    (gpuIDs : List Int) : List String :=
  (if hasPrefixStr model "/" || hasSuffixStr model ".gguf"
    then ["-m", model] else ["-hf", model])
  ++ ["--port", toString port, "--host", host, "-ngl", toString ngl, "-c", toString ctxLen]
  ++ (if gpuEnv ≠ "" then
        if gpuIDs.length > 1 then
          ["-mg", "0", "--tensor-split",
            joinComma (List.replicate gpuIDs.length (fmtRatio gpuIDs.length))]
        else ["-mg", toString mainGPU]
      else [])
  ++ (if cacheK ≠ "" then ["-ctk", cacheK] else [])
  ++ (if cacheV ≠ "" then ["-ctv", cacheV] else [])
  ++ ["--metrics"]

/-! ## Supervisor restart loop (src/manager.go, runWithRestart) -/

/-- Supervisor-loop state for one instance: the restart counter and
whether the supervisor loop is still alive (will start the child again).
`active = false` after the loop gave up or was never running. -/
structure SupState where
  restartCount : Nat
  active : Bool
deriving DecidableEq, Repr

/-- Events driving the supervisor state: a child exit that is not
operator-initiated (the supervisor saw `exitCh` fire and the instance is
not `stopped`), and the operator actions `StartInstance` and
`RestartInstance`, both of which reset the counter and launch a loop. -/
inductive MgrEvent
  | childExit
  | startInstance
  | restartInstance
deriving DecidableEq, Repr

/-- One step of Go `Manager.runWithRestart` and the operator entry points.
On a non-operator child exit the count is incremented
(`IncrementRestarts`) and the loop exits exactly when
`MaxRestarts > 0 && count >= MaxRestarts`; otherwise it restarts.
`StartInstance` and `RestartInstance` call `ResetRestarts` and spawn a
fresh loop. -/
def supStep (maxRestarts : Int) (st : SupState) : MgrEvent → SupState
  | MgrEvent.childExit =>
    if st.active then
      let c := st.restartCount + 1
      if maxRestarts > 0 ∧ (c : Int) ≥ maxRestarts then ⟨c, false⟩ else ⟨c, true⟩
    else st
  | MgrEvent.startInstance => ⟨0, true⟩
  | MgrEvent.restartInstance => ⟨0, true⟩

/-- Run a sequence of supervisor events. -/
def supRun (maxRestarts : Int) (st : SupState) (evs : List MgrEvent) : SupState :=
  evs.foldl (supStep maxRestarts) st

/-! ## Instance stop (src/instance.go, Instance.Stop) -/

/-- Runtime fields of a Go `Instance` that `Stop` can observe or touch:
the state string, whether the per-incarnation stop channel is non-nil
(open), whether a child process handle is present, plus the fields
`Stop` must leave alone. -/
structure InstRt where
  state : String
  stopChOpen : Bool
  hasCmd : Bool
  restartCount : Nat
  lastError : String
  logLines : List String
deriving DecidableEq, Repr

/-- Result of Go `Instance.Stop`: the instance afterwards, the returned
error, and the observable effects (whether the stop channel was closed
and whether a kill signal was sent). -/
structure StopResult where
  inst : InstRt
  err : Option String
  closedStopCh : Bool
  sentKill : Bool
deriving DecidableEq, Repr

/-- Go `Instance.Stop`: an already-stopped instance returns nil at once;
otherwise the state becomes "stopped", an open stop channel is closed,
and a present child process is killed (kill modeled as succeeding). -/
def instStop (i : InstRt) : StopResult :=
  if i.state = "stopped" then ⟨i, none, false, false⟩
  else
    let i1 := { i with state := "stopped" }
    if i1.stopChOpen then
      let i2 := { i1 with stopChOpen := false }
      if i2.hasCmd then ⟨i2, none, true, true⟩ else ⟨i2, none, true, false⟩
    else
      if i1.hasCmd then ⟨i1, none, false, true⟩ else ⟨i1, none, false, false⟩

/-! ## Ring log buffer (src/instance.go, ringBuffer) -/

/-- Go `ringBuffer`: a fixed array of strings (here a list of fixed
length), the write position, and whether the buffer has wrapped. -/
structure RingBuffer where
  buf : List String
  size : Nat
  pos : Nat
  full : Bool
deriving DecidableEq, Repr

/-- Go `newRingBuffer`. -/
def newRingBuffer (size : Nat) : RingBuffer :=
  ⟨List.replicate size "", size, 0, false⟩

/-- Go `ringBuffer.Add`: write at `pos`, advance, wrap and mark full. -/
def RingBuffer.add (rb : RingBuffer) (line : String) : RingBuffer :=
  let buf := rb.buf.set rb.pos line
  if rb.pos + 1 ≥ rb.size then ⟨buf, rb.size, 0, true⟩
  else ⟨buf, rb.size, rb.pos + 1, rb.full⟩

/-- Go `ringBuffer.Lines`: snapshot in insertion order, oldest first. -/
def RingBuffer.snapshot (rb : RingBuffer) : List String :=
  if rb.full then rb.buf.drop rb.pos ++ rb.buf.take rb.pos
  else rb.buf.take rb.pos

/-- Append a whole list of lines in order. -/
def RingBuffer.addAll (rb : RingBuffer) (xs : List String) : RingBuffer :=
  xs.foldl RingBuffer.add rb

/-- Structural well-formedness of a ring buffer: the backing list has
exactly `size` cells and the write position is in range.  It holds for
`newRingBuffer C` with `C > 0` and is preserved by `add`. -/
def RingBuffer.Wf (rb : RingBuffer) : Prop :=
  rb.buf.length = rb.size ∧ rb.pos < rb.size

/-! ## Concrete inputs used by witnesses and counterexamples -/

/-- Download job as the completion heuristic leaves it: the drain loop saw
a line containing "listening on", set the status to "done", logged, and
asynchronously killed the child. -/
def heuristicDoneJob : DownloadJob :=
  { repo := "unsloth/gemma", quant := "Q4_K_M", status := "done",
    logs := ["main: server is listening on http://127.0.0.1:8080",
             "model downloaded, stopping server"],
    hasProc := true }

/-- A download manager whose slot holds a finished ("done") job. -/
def dmWithDoneJob : DownloadManager :=
  { serverBin := "/usr/local/bin/llama-server", active := some heuristicDoneJob }

/-- A download manager whose slot holds a job still downloading. -/
def dmBusy : DownloadManager :=
  { serverBin := "/usr/local/bin/llama-server",
    active := some ⟨"org/repo", "", "downloading", [], true⟩ }

/-- A configuration with the documented defaults and no instances. -/
def cfg0 : Config :=
  { serverBin := "/usr/local/bin/llama-server", managerPort := 8080,
    restartDelay := 5000000000, maxRestarts := 10,
    healthCheckInterval := 30000000000, gpuBackend := "vulkan",
    host := "0.0.0.0", ngl := 99, mainGPU := 0, contextLength := 16384,
    cacheTypeK := "q8_0", cacheTypeV := "q8_0", instances := [] }

/-- Settings carrying a new server binary together with an unparseable
restart-delay string and otherwise valid values. -/
def badDelaySettings : Settings :=
  { serverBin := "/opt/new/llama-server", managerPort := 8080,
    restartDelay := "often", maxRestarts := 0, healthCheckInterval := "",
    gpuBackend := "", host := "", ngl := 0, mainGPU := 0,
    contextLength := 1, cacheTypeK := "", cacheTypeV := "" }

/-- Settings rejected by the up-front validation (negative max-restarts). -/
def negRestartSettings : Settings :=
  { serverBin := "/opt/new/llama-server", managerPort := 8080,
    restartDelay := "", maxRestarts := -1, healthCheckInterval := "",
    gpuBackend := "", host := "", ngl := 0, mainGPU := 0,
    contextLength := 1, cacheTypeK := "", cacheTypeV := "" }

/-- Settings with every string field empty and the numeric fields set. -/
def numericOnlySettings : Settings :=
  { serverBin := "", managerPort := 0, restartDelay := "",
    maxRestarts := 3, healthCheckInterval := "", gpuBackend := "",
    host := "", ngl := 48, mainGPU := 1, contextLength := 4096,
    cacheTypeK := "", cacheTypeV := "" }

/-- Settings whose context length was omitted (JSON zero value). -/
def omittedCtxSettings : Settings :=
  { serverBin := "", managerPort := 0, restartDelay := "",
    maxRestarts := 3, healthCheckInterval := "", gpuBackend := "",
    host := "", ngl := 48, mainGPU := 1, contextLength := 0,
    cacheTypeK := "", cacheTypeV := "" }

/-- The store after `numericOnlySettings` was applied to `cfg0`: only the
four numeric fields differ. -/
def cfg0Numerics : Config :=
  { cfg0 with maxRestarts := 3, ngl := 48, mainGPU := 1, contextLength := 4096 }

/-- An instance declaration with an empty device list. -/
def dupConf : InstanceConf :=
  ⟨"a", "m.gguf", 9090, [], none, none, none, none⟩

/-- A configuration whose instance list repeats the same name and port
twice; `server_bin` is non-empty. -/
def cfgDup : Config := { cfg0 with instances := [dupConf, dupConf] }

/-- A configuration holding two distinct, uniquely named instances. -/
def cfgTwo : Config :=
  { cfg0 with instances :=
      [⟨"a", "m.gguf", 9090, [0], none, none, none, none⟩,
       ⟨"b", "n.gguf", 9091, [1], none, none, none, none⟩] }

/-- A third instance with a fresh name and port. -/
def confC : InstanceConf := ⟨"c", "p.gguf", 9092, [2], none, none, none, none⟩

/-- A replacement for instance "a" keeping its port but renaming it. -/
def confA2 : InstanceConf := ⟨"a2", "q.gguf", 9090, [0, 1], none, none, none, none⟩

/-- A stopped runtime instance with some history in its fields. -/
def stoppedInst : InstRt :=
  ⟨"stopped", false, false, 3, "signal: killed", ["line one", "line two"]⟩

/-! # Theorems -/

/-- C1: evaluation of the exit observer at the input the claim singles
out.  After the completion heuristic has set the status to "done" and
killed the child, `cmd.Wait` reports a non-nil error; the claim (and the
spec) say the observer then sets "done", but the observer only tests the
error for non-nil, so it overwrites the status with "failed" and appends
the exit error to the logs. -/
theorem exitObserve_overwrites_heuristic_done :
    (exitObserve heuristicDoneJob (some "signal: killed")).status = "failed" ∧
    (exitObserve heuristicDoneJob (some "signal: killed")).status ≠ "done" ∧
    (exitObserve heuristicDoneJob (some "signal: killed")).logs =
      heuristicDoneJob.logs ++ ["process exited: signal: killed"] := by
  refine ⟨by decide, by decide, by decide⟩

/-- C8: calling Stop on an instance whose state is "stopped" returns nil
and changes nothing: the instance is returned unchanged, no stop channel
is closed, and no kill signal is sent. -/
theorem instStop_stopped_noop (i : InstRt) (h : i.state = "stopped") :
    instStop i = ⟨i, none, false, false⟩ := by
  simp [instStop, h]

/-- Witness for C8 at a concrete stopped instance. -/
theorem instStop_stopped_noop_witness :
    instStop stoppedInst = ⟨stoppedInst, none, false, false⟩ :=
  instStop_stopped_noop stoppedInst (by decide)

/-- C9: DownloadManager.Stop with no active job, or with a job that has
no started process, returns leaving the manager unchanged; with an
active job holding a live process it sets the status to "stopped" and
appends the log line, whatever the previous status was — in particular a
"done" or "failed" job is rewritten to "stopped". -/
theorem dmStop_spec (dm : DownloadManager) :
    (dm.active = none → dmStop dm = dm) ∧
    (∀ j, dm.active = some j → j.hasProc = false → dmStop dm = dm) ∧
    (∀ j, dm.active = some j → j.hasProc = true →
      dmStop dm =
        { dm with
          active := some ⟨j.repo, j.quant, "stopped",
                          addLog j.logs "download stopped by user", j.hasProc⟩ }) := by
  refine ⟨fun h => by simp [dmStop, h],
          fun j hj hp => by simp [dmStop, hj, hp],
          fun j hj hp => by simp [dmStop, hj, hp]⟩

/-- Witness for C9: stopping a manager whose job already finished as
"done" rewrites the status to "stopped". -/
theorem dmStop_spec_witness :
    dmStop dmWithDoneJob =
      { dmWithDoneJob with
        active := some ⟨heuristicDoneJob.repo, heuristicDoneJob.quant, "stopped",
                        addLog heuristicDoneJob.logs "download stopped by user",
                        heuristicDoneJob.hasProc⟩ } :=
  (dmStop_spec dmWithDoneJob).2.2 heuristicDoneJob (by decide) (by decide)

/-- C6: with the OS spawn succeeding, DownloadManager.Start errors
exactly when the slot holds a job whose status is "downloading"; on
success (slot empty, or previous job "done"/"failed"/"stopped") the
child is spawned with arguments `-hf repo[:quant] --port 0` and the slot
is replaced by a new job whose initial status is "downloading". -/
theorem dmStart_spec (dm : DownloadManager) (repo quant : String) :
    ((∃ e, dmStart dm repo quant (Except.ok ()) = Except.error e) ↔
      (∃ j, dm.active = some j ∧ j.status = "downloading")) ∧
    (∀ dm' args, dmStart dm repo quant (Except.ok ()) = Except.ok (dm', args) →
      args = ["-hf", downloadModelArg repo quant, "--port", "0"] ∧
      dm'.serverBin = dm.serverBin ∧
      dm'.active = some ⟨repo, quant, "downloading", [], true⟩) := by
  cases hA : dm.active with
  | none =>
    constructor
    · simp [dmStart, hA, dmStartSpawn]
    · intro dm' args h
      simp [dmStart, hA, dmStartSpawn] at h
      simp [← h.1, ← h.2]
  | some j =>
    by_cases hs : j.status = "downloading"
    · constructor
      · simp [dmStart, hA, hs]
      · intro dm' args h
        simp [dmStart, hA, hs] at h
    · constructor
      · simp [dmStart, hA, hs, dmStartSpawn]
      · intro dm' args h
        simp [dmStart, hA, hs, dmStartSpawn] at h
        simp [← h.1, ← h.2]

/-- Witness for C6: starting over a "done" job succeeds with the
documented argument vector and a fresh "downloading" job; starting while
a "downloading" job is active errors. -/
theorem dmStart_spec_witness :
    (["-hf", "unsloth/gemma:Q4_K_M", "--port", "0"] : List String) =
      ["-hf", downloadModelArg "unsloth/gemma" "Q4_K_M", "--port", "0"] ∧
    (∃ e, dmStart dmBusy "unsloth/gemma" "" (Except.ok ()) = Except.error e) := by
  constructor
  · exact ((dmStart_spec dmWithDoneJob "unsloth/gemma" "Q4_K_M").2
      { dmWithDoneJob with
        active := some ⟨"unsloth/gemma", "Q4_K_M", "downloading", [], true⟩ }
      ["-hf", "unsloth/gemma:Q4_K_M", "--port", "0"] (by rfl)).1
  · exact (dmStart_spec dmBusy "unsloth/gemma" "").1.mpr
      ⟨⟨"org/repo", "", "downloading", [], true⟩, by decide, by decide⟩

/-- Helper: with max-restarts 0 the supervisor never becomes inactive. -/
theorem supRun_zero_keeps_active (l : List MgrEvent) :
    ∀ st : SupState, st.active = true → (supRun 0 st l).active = true := by
  induction l with
  | nil => intro st h; exact h
  | cons e l ih =>
    intro st h
    have hstep : (supStep 0 st e).active = true := by
      cases e with
      | childExit => simp [supStep, h]
      | startInstance => rfl
      | restartInstance => rfl
    simpa [supRun] using ih (supStep 0 st e) hstep

/-- Helper: an inactive supervisor is left untouched by child exits. -/
theorem supRun_inactive_frozen (m : Int) (l : List MgrEvent) :
    ∀ st : SupState, st.active = false →
      (∀ e ∈ l, e = MgrEvent.childExit) → supRun m st l = st := by
  induction l with
  | nil => intro st _ _; rfl
  | cons e l ih =>
    intro st h hl
    have he : e = MgrEvent.childExit := hl e (List.mem_cons_self e l)
    subst he
    have hstep : supStep m st MgrEvent.childExit = st := by
      simp [supStep, h]
    simpa [supRun, hstep] using
      ih st h (fun x hx => hl x (List.mem_cons_of_mem _ hx))

/-- C5: after a non-operator child exit the restart count is incremented
and the supervisor loop exits exactly when max-restarts is positive and
the new count has reached it; with max-restarts 0 the ceiling is
disabled and the loop stays alive through any event sequence; once the
loop has given up, child exits alone never revive it, and only the
operator actions StartInstance / RestartInstance (which reset the count)
start supervision again. -/
theorem supervisor_restart_policy (m : Int) (st : SupState) (l : List MgrEvent) :
    (st.active = true →
      (supStep m st MgrEvent.childExit).restartCount = st.restartCount + 1 ∧
      ((supStep m st MgrEvent.childExit).active = false ↔
        m > 0 ∧ (st.restartCount + 1 : Int) ≥ m)) ∧
    (m = 0 → st.active = true → (supRun m st l).active = true) ∧
    (st.active = false → (∀ e ∈ l, e = MgrEvent.childExit) → supRun m st l = st) ∧
    supStep m st MgrEvent.startInstance = ⟨0, true⟩ ∧
    supStep m st MgrEvent.restartInstance = ⟨0, true⟩ := by
  refine ⟨?_, ?_, ?_, rfl, rfl⟩
  · intro h
    constructor
    · simp only [supStep, h, if_true]
      split <;> rfl
    · simp only [supStep, h, if_true]
      split
      · rename_i hc; simpa using hc
      · rename_i hc; simpa using hc
  · intro hm h
    subst hm
    exact supRun_zero_keeps_active l st h
  · intro h hl
    exact supRun_inactive_frozen m l st h hl

/-- Witness for C5 at max-restarts 3, counts 2 and 7, and max-restarts
0 with two consecutive crashes. -/
theorem supervisor_restart_policy_witness :
    (supStep 3 ⟨2, true⟩ MgrEvent.childExit).restartCount = 3 ∧
    (supStep 3 ⟨2, true⟩ MgrEvent.childExit).active = false ∧
    (supRun 0 ⟨5, true⟩ [MgrEvent.childExit, MgrEvent.childExit]).active = true ∧
    supRun 7 ⟨7, false⟩ [MgrEvent.childExit] = ⟨7, false⟩ := by
  have h3 := supervisor_restart_policy 3 ⟨2, true⟩ []
  have h0 := supervisor_restart_policy 0 ⟨5, true⟩ [MgrEvent.childExit, MgrEvent.childExit]
  have h7 := supervisor_restart_policy 7 ⟨7, false⟩ [MgrEvent.childExit]
  refine ⟨(h3.1 rfl).1, (h3.1 rfl).2.mpr (by norm_num), h0.2.1 rfl rfl, h7.2.2.1 rfl ?_⟩
  intro e he
  simpa using he

/-- Helper: field accounting for the tail assignment block of
UpdateSettings — which stored fields it leaves alone, which it copies
from the request, and which it copies only when the request string is
non-empty. -/
theorem applyScalars_fields (c : Config) (s : Settings) :
    (applyScalarSettings c s).serverBin = c.serverBin ∧
    (applyScalarSettings c s).restartDelay = c.restartDelay ∧
    (applyScalarSettings c s).healthCheckInterval = c.healthCheckInterval ∧
    (applyScalarSettings c s).managerPort = c.managerPort ∧
    (applyScalarSettings c s).instances = c.instances ∧
    (applyScalarSettings c s).maxRestarts = s.maxRestarts ∧
    (applyScalarSettings c s).ngl = s.ngl ∧
    (applyScalarSettings c s).mainGPU = s.mainGPU ∧
    (applyScalarSettings c s).contextLength = s.contextLength ∧
    (s.gpuBackend = "" → (applyScalarSettings c s).gpuBackend = c.gpuBackend) ∧
    (s.host = "" → (applyScalarSettings c s).host = c.host) ∧
    (s.cacheTypeK = "" → (applyScalarSettings c s).cacheTypeK = c.cacheTypeK) ∧
    (s.cacheTypeV = "" → (applyScalarSettings c s).cacheTypeV = c.cacheTypeV) := by
  by_cases hg : s.gpuBackend = "" <;> by_cases hh : s.host = "" <;>
    by_cases hk : s.cacheTypeK = "" <;> by_cases hv : s.cacheTypeV = "" <;>
      simp [applyScalarSettings, hg, hh, hk, hv]

/-- C2 counterexample: a Settings value carrying a new server binary and
an unparseable restart-delay string makes UpdateSettings return an
error, yet the stored server binary has already been overwritten — the
claim that an erroring UpdateSettings leaves the store untouched fails. -/
theorem updateSettings_error_can_mutate :
    (updateSettings parseDurSeconds cfg0 badDelaySettings).1.isSome = true ∧
    (updateSettings parseDurSeconds cfg0 badDelaySettings).2 ≠ cfg0 ∧
    (updateSettings parseDurSeconds cfg0 badDelaySettings).2.serverBin =
      "/opt/new/llama-server" := by
  refine ⟨by decide, by decide, by decide⟩

/-- C2 (amended): an error raised by the up-front validation checks
(max-restarts, ngl, main-gpu, context-length, backend) leaves the
configuration exactly as it was; any error at all leaves every field
other than server-bin and restart-delay unchanged — but a duration
parse or positivity error is raised only after the server-bin (and, for
the health-check field, restart-delay) assignments may already have
mutated the store. -/
theorem updateSettings_error_frame (p : String → Option Int) (cfg : Config) (s : Settings)
    (e : String) (h : (updateSettings p cfg s).1 = some e) :
    ((validateSettings s).isSome = true → (updateSettings p cfg s).2 = cfg) ∧
    ((updateSettings p cfg s).2.managerPort = cfg.managerPort ∧
     (updateSettings p cfg s).2.maxRestarts = cfg.maxRestarts ∧
     (updateSettings p cfg s).2.healthCheckInterval = cfg.healthCheckInterval ∧
     (updateSettings p cfg s).2.gpuBackend = cfg.gpuBackend ∧
     (updateSettings p cfg s).2.host = cfg.host ∧
     (updateSettings p cfg s).2.ngl = cfg.ngl ∧
     (updateSettings p cfg s).2.mainGPU = cfg.mainGPU ∧
     (updateSettings p cfg s).2.contextLength = cfg.contextLength ∧
     (updateSettings p cfg s).2.cacheTypeK = cfg.cacheTypeK ∧
     (updateSettings p cfg s).2.cacheTypeV = cfg.cacheTypeV ∧
     (updateSettings p cfg s).2.instances = cfg.instances) := by
  cases hv : validateSettings s with
  | some m =>
    constructor
    · intro _
      simp [updateSettings, hv]
    · simp [updateSettings, hv]
  | none =>
    constructor
    · intro hcontra
      simp at hcontra
    · cases hrd : parsePositiveDur p s.restartDelay with
      | error e1 =>
        by_cases hsb : s.serverBin = "" <;>
          simp [updateSettings, hv, hrd, hsb]
      | ok od =>
        cases hhh : parsePositiveDur p s.healthCheckInterval with
        | error e2 =>
          by_cases hsb : s.serverBin = "" <;> cases od <;>
            simp [updateSettings, setRestartDelay, hv, hrd, hhh, hsb]
        | ok oh =>
          exfalso
          simp [updateSettings, hv, hrd, hhh] at h

/-- Witness for the amended C2: a negative max-restarts is rejected by
the up-front validation and the configuration is returned unchanged. -/
theorem updateSettings_error_frame_witness :
    (updateSettings parseDurSeconds cfg0 negRestartSettings).2 = cfg0 :=
  (updateSettings_error_frame parseDurSeconds cfg0 negRestartSettings
    "max_restarts must be >= 0" (by decide)).1 (by decide)

/-- C10: UpdateSettings is an asymmetric partial update.  On success,
every string field supplied empty (server-bin, restart-delay,
health-check-interval, gpu-backend, host, cache-type-k, cache-type-v)
leaves the stored value unchanged, while the numeric fields
max-restarts, ngl, main-gpu and context-length always take the supplied
values; and a request whose context-length carries the zero value is
rejected without touching the store, so the stored context length
cannot be preserved by omission. -/
theorem updateSettings_partial_asymmetry (p : String → Option Int)
    (cfg : Config) (s : Settings) :
    (∀ r, updateSettings p cfg s = (none, r) →
      ((s.serverBin = "" → r.serverBin = cfg.serverBin) ∧
       (s.restartDelay = "" → r.restartDelay = cfg.restartDelay) ∧
       (s.healthCheckInterval = "" → r.healthCheckInterval = cfg.healthCheckInterval) ∧
       (s.gpuBackend = "" → r.gpuBackend = cfg.gpuBackend) ∧
       (s.host = "" → r.host = cfg.host) ∧
       (s.cacheTypeK = "" → r.cacheTypeK = cfg.cacheTypeK) ∧
       (s.cacheTypeV = "" → r.cacheTypeV = cfg.cacheTypeV) ∧
       r.maxRestarts = s.maxRestarts ∧ r.ngl = s.ngl ∧
       r.mainGPU = s.mainGPU ∧ r.contextLength = s.contextLength)) ∧
    (s.contextLength = 0 →
      (updateSettings p cfg s).1.isSome = true ∧
      (updateSettings p cfg s).2 = cfg) := by
  constructor
  · intro r hr
    cases hv : validateSettings s with
    | some m => simp [updateSettings, hv] at hr
    | none =>
      cases hrd : parsePositiveDur p s.restartDelay with
      | error e1 => simp [updateSettings, hv, hrd] at hr
      | ok od =>
        cases hhh : parsePositiveDur p s.healthCheckInterval with
        | error e2 => simp [updateSettings, hv, hrd, hhh] at hr
        | ok oh =>
          simp only [updateSettings, hv, hrd, hhh, Prod.mk.injEq, true_and] at hr
          subst hr
          obtain ⟨aSB, aRD, aHCI, aMP, aINST, aMR, aNGL, aMG, aCTX, aGB, aHOST, aCK, aCV⟩ :=
            applyScalars_fields (setHealthCheck (setRestartDelay
              (if s.serverBin = "" then cfg
               else { cfg with serverBin := s.serverBin }) od) oh) s
          refine ⟨fun h1 => ?_, fun h2 => ?_, fun h3 => ?_, fun h4 => ?_,
                  fun h5 => ?_, fun h6 => ?_, fun h7 => ?_, aMR, aNGL, aMG, aCTX⟩
          · rw [aSB]
            cases od <;> cases oh <;> simp [setRestartDelay, setHealthCheck, h1]
          · have hodn : od = none := by
              rw [h2] at hrd
              simpa [parsePositiveDur] using hrd.symm
            subst hodn
            rw [aRD]
            cases oh <;> simp [setRestartDelay, setHealthCheck] <;> split <;> rfl
          · have hohn : oh = none := by
              rw [h3] at hhh
              simpa [parsePositiveDur] using hhh.symm
            subst hohn
            rw [aHCI]
            cases od <;> simp [setRestartDelay, setHealthCheck] <;> split <;> rfl
          · rw [aGB h4]
            cases od <;> cases oh <;>
              simp [setRestartDelay, setHealthCheck] <;> split <;> rfl
          · rw [aHOST h5]
            cases od <;> cases oh <;>
              simp [setRestartDelay, setHealthCheck] <;> split <;> rfl
          · rw [aCK h6]
            cases od <;> cases oh <;>
              simp [setRestartDelay, setHealthCheck] <;> split <;> rfl
          · rw [aCV h7]
            cases od <;> cases oh <;>
              simp [setRestartDelay, setHealthCheck] <;> split <;> rfl
  · intro hctx
    have hv : ∃ m, validateSettings s = some m := by
      unfold validateSettings
      split
      · exact ⟨_, rfl⟩
      · split
        · exact ⟨_, rfl⟩
        · split
          · exact ⟨_, rfl⟩
          · rw [if_pos (by omega)]
            exact ⟨_, rfl⟩
    obtain ⟨m, hm⟩ := hv
    simp [updateSettings, hm]

/-- Witness for C10: a request with every string field empty and the
numeric fields set succeeds, keeping the stored server binary while
overwriting max-restarts; the same request with context length 0 is
rejected leaving the store unchanged. -/
theorem updateSettings_partial_asymmetry_witness :
    cfg0Numerics.serverBin = cfg0.serverBin ∧
    cfg0Numerics.maxRestarts = numericOnlySettings.maxRestarts ∧
    (updateSettings parseDurSeconds cfg0 omittedCtxSettings).1.isSome = true ∧
    (updateSettings parseDurSeconds cfg0 omittedCtxSettings).2 = cfg0 := by
  have h := (updateSettings_partial_asymmetry parseDurSeconds cfg0 numericOnlySettings).1
      cfg0Numerics (by decide)
  have h2 := (updateSettings_partial_asymmetry parseDurSeconds cfg0 omittedCtxSettings).2
      (by decide)
  exact ⟨h.1 (by decide), h.2.2.2.2.2.2.2.1, h2.1, h2.2⟩

/-- C3 counterexample: the load-time validation accepts a configuration
whose two instances share one name and one port and have empty device
lists, and the config-store AddInstance likewise accepts an instance
with an empty device list — the claimed invariant does not hold for
every accepted configuration. -/
theorem loadConfig_accepts_invalid :
    loadConfigCheck cfgDup = Except.ok cfgDup ∧
    ¬ (cfgDup.instances.map (fun e => e.name)).Nodup ∧
    ¬ (cfgDup.instances.map (fun e => e.port)).Nodup ∧
    dupConf ∈ cfgDup.instances ∧ dupConf.gpuIDs = [] ∧
    addInstance cfg0 dupConf = Except.ok { cfg0 with instances := [dupConf] } := by
  refine ⟨by rfl, by decide, by decide, by decide, by decide, by rfl⟩

/-- Helper: a clean duplicate scan means the new instance clashes with no
existing entry. -/
theorem findConflict_none {l : List InstanceConf} {ic : InstanceConf}
    (h : findConflict l ic = none) :
    ∀ e ∈ l, e.name ≠ ic.name ∧ e.port ≠ ic.port := by
  induction l with
  | nil => intro e he; cases he
  | cons a t ih =>
    intro e he
    by_cases hn : a.name = ic.name
    · simp [findConflict, hn] at h
    · by_cases hp : a.port = ic.port
      · simp [findConflict, hn, hp] at h
      · have h' : findConflict t ic = none := by
          simpa [findConflict, hn, hp] using h
        rcases List.mem_cons.mp he with he | he
        · subst he; exact ⟨hn, hp⟩
        · exact ih h' e he

/-- Helper: a clean update scan means every position other than the
updated one clashes with the replacement in neither port nor name. -/
theorem updConflict_none {ic : InstanceConf} :
    ∀ (l : List InstanceConf) (k i : Nat), updConflict l k i ic = none →
      ∀ j (hj : j < l.length), k + j ≠ i →
        (l.get ⟨j, hj⟩).port ≠ ic.port ∧ (l.get ⟨j, hj⟩).name ≠ ic.name := by
  intro l
  induction l with
  | nil =>
    intro k i _ j hj
    exact absurd hj (by simp)
  | cons a t ih =>
    intro k i h j hj hne
    by_cases hki : k = i
    · have h' : updConflict t (k + 1) i ic = none := by
        simpa [updConflict, hki] using h
      cases j with
      | zero => exact absurd (by omega) hne
      | succ j =>
        simpa using ih (k + 1) i h' j (Nat.lt_of_succ_lt_succ hj) (by omega)
    · by_cases hpp : a.port = ic.port
      · simp [updConflict, hki, hpp] at h
      · by_cases hnm : a.name = ic.name
        · simp [updConflict, hki, hpp, hnm] at h
        · have h' : updConflict t (k + 1) i ic = none := by
            simpa [updConflict, hki, hpp, hnm] using h
          cases j with
          | zero => exact ⟨by simpa using hpp, by simpa using hnm⟩
          | succ j =>
            simpa using ih (k + 1) i h' j (Nat.lt_of_succ_lt_succ hj) (by omega)

/-- Helper: replacing position `i` of a duplicate-free list with a value
different from every other entry keeps the list duplicate-free. -/
theorem nodup_set {α : Type} (l : List α) :
    ∀ (i : Nat) (x : α), l.Nodup →
      (∀ j (hj : j < l.length), j ≠ i → l.get ⟨j, hj⟩ ≠ x) →
      (l.set i x).Nodup := by
  induction l with
  | nil => intro i x _ _; simp
  | cons a t ih =>
    intro i x hnd hne
    have hnd' := List.nodup_cons.mp hnd
    cases i with
    | zero =>
      rw [List.set_cons_zero]
      refine List.nodup_cons.mpr ⟨?_, hnd'.2⟩
      intro hmem
      obtain ⟨⟨j, hj⟩, hget⟩ := List.mem_iff_get.mp hmem
      exact hne (j + 1) (Nat.succ_lt_succ hj) (by omega) (by simpa using hget)
    | succ i =>
      rw [List.set_cons_succ]
      refine List.nodup_cons.mpr ⟨?_, ih i x hnd'.2 ?_⟩
      · intro hmem
        rcases List.mem_or_eq_of_mem_set hmem with hmem' | heq
        · exact hnd'.1 hmem'
        · exact hne 0 (by simp) (by omega) heq
      · intro j hj hji
        simpa using hne (j + 1) (Nat.succ_lt_succ hj) (by omega)

/-- C3 (amended): starting from a configuration whose instance names and
ports are pairwise distinct, a successful AddInstance or UpdateInstance
yields a configuration whose names and ports are still pairwise
distinct.  (loadConfig itself validates only that the server binary is
non-empty, and neither it nor the config store checks that device-id
lists are non-empty — that check lives in the HTTP handlers.) -/
theorem instanceMutation_preserves_uniqueness (cfg : Config) (nm : String)
    (ic : InstanceConf)
    (hn : (cfg.instances.map (fun e => e.name)).Nodup)
    (hp : (cfg.instances.map (fun e => e.port)).Nodup) :
    (∀ cfg', addInstance cfg ic = Except.ok cfg' →
      (cfg'.instances.map (fun e => e.name)).Nodup ∧
      (cfg'.instances.map (fun e => e.port)).Nodup) ∧
    (∀ cfg', updateInstance cfg nm ic = Except.ok cfg' →
      (cfg'.instances.map (fun e => e.name)).Nodup ∧
      (cfg'.instances.map (fun e => e.port)).Nodup) := by
  constructor
  · intro cfg' h
    cases hf : findConflict cfg.instances ic with
    | some e => simp [addInstance, hf] at h
    | none =>
      have hclean := findConflict_none hf
      simp only [addInstance, hf, Except.ok.injEq] at h
      subst h
      constructor
      · rw [List.map_append]
        refine (hn.append (List.nodup_singleton _)) ?_
        intro x hx1 hx2
        obtain ⟨e, he, hex⟩ := List.mem_map.mp hx1
        rcases List.mem_singleton.mp hx2 with rfl
        exact (hclean e he).1 (by rw [hex])
      · rw [List.map_append]
        refine (hp.append (List.nodup_singleton _)) ?_
        intro x hx1 hx2
        obtain ⟨e, he, hex⟩ := List.mem_map.mp hx1
        rcases List.mem_singleton.mp hx2 with rfl
        exact (hclean e he).2 (by rw [hex])
  · intro cfg' h
    cases hidx : cfg.instances.findIdx? (fun e => e.name = nm) with
    | none => simp [updateInstance, hidx] at h
    | some i =>
      cases hc : updConflict cfg.instances 0 i ic with
      | some e => simp [updateInstance, hidx, hc] at h
      | none =>
        have hclean := updConflict_none cfg.instances 0 i hc
        simp only [updateInstance, hidx, hc, Except.ok.injEq] at h
        subst h
        constructor
        · rw [List.map_set]
          refine nodup_set _ i ic.name hn ?_
          intro j hj hji
          have hj' : j < cfg.instances.length := by simpa using hj
          have := (hclean j hj' (by omega)).2
          simpa using this
        · rw [List.map_set]
          refine nodup_set _ i ic.port hp ?_
          intro j hj hji
          have hj' : j < cfg.instances.length := by simpa using hj
          have := (hclean j hj' (by omega)).1
          simpa using this

/-- Witness for the amended C3: adding a third uniquely named instance
and renaming instance "a" both keep names and ports pairwise distinct. -/
theorem instanceMutation_preserves_uniqueness_witness :
    ((cfgTwo.instances ++ [confC]).map (fun e => e.name)).Nodup ∧
    ((cfgTwo.instances ++ [confC]).map (fun e => e.port)).Nodup ∧
    ((cfgTwo.instances.set 0 confA2).map (fun e => e.name)).Nodup ∧
    ((cfgTwo.instances.set 0 confA2).map (fun e => e.port)).Nodup := by
  have hadd := (instanceMutation_preserves_uniqueness cfgTwo "a" confC
      (by decide) (by decide)).1 { cfgTwo with instances := cfgTwo.instances ++ [confC] } rfl
  have hupd := (instanceMutation_preserves_uniqueness cfgTwo "a" confA2
      (by decide) (by decide)).2 { cfgTwo with instances := cfgTwo.instances.set 0 confA2 } rfl
  exact ⟨hadd.1, hadd.2, hupd.1, hupd.2⟩

/-- C4: the argument vector of Instance.Start opens with `-m <locator>`
exactly when the locator begins with "/" or ends with ".gguf" and with
`-hf <locator>` otherwise (a pure function of the locator); `--metrics`
is always a member; and `--tensor-split` occurs — with the full block
`-mg 0 --tensor-split r,...,r` contiguous in the vector — if and only if
the backend maps to a non-empty visible-devices env var and the device
list has at least two entries.  The disequality hypotheses rule out the
degenerate case of a configured string that itself spells the flag. -/
theorem instArgs_spec (fmtRatio : Nat → String) (model : String) (port : Int)
    (host : String) (ngl ctxLen mainGPU : Int) (cacheK cacheV : String)
    (backend gpuEnv : String) (gpuIDs : List Int)
    (hge : gpuEnv = gpuEnvVar backend)
    (hm : model ≠ "--tensor-split") (hh : host ≠ "--tensor-split")
    (hk : cacheK ≠ "--tensor-split") (hv : cacheV ≠ "--tensor-split")
    (hps : toString port ≠ "--tensor-split") (hns : toString ngl ≠ "--tensor-split")
    (hcs : toString ctxLen ≠ "--tensor-split") (hgs : toString mainGPU ≠ "--tensor-split") :
    (∃ rest, instArgs fmtRatio model port host ngl ctxLen mainGPU cacheK cacheV gpuEnv gpuIDs =
      (if hasPrefixStr model "/" || hasSuffixStr model ".gguf"
       then ["-m", model] else ["-hf", model]) ++ rest) ∧
    "--metrics" ∈ instArgs fmtRatio model port host ngl ctxLen mainGPU cacheK cacheV gpuEnv gpuIDs ∧
    ("--tensor-split" ∈ instArgs fmtRatio model port host ngl ctxLen mainGPU cacheK cacheV gpuEnv gpuIDs ↔
      (gpuEnvVar backend ≠ "" ∧ 2 ≤ gpuIDs.length)) ∧
    ((gpuEnvVar backend ≠ "" ∧ 2 ≤ gpuIDs.length) →
      ∃ l r, instArgs fmtRatio model port host ngl ctxLen mainGPU cacheK cacheV gpuEnv gpuIDs =
        l ++ ["-mg", "0", "--tensor-split",
              joinComma (List.replicate gpuIDs.length (fmtRatio gpuIDs.length))] ++ r) := by
  subst hge
  have hm' := Ne.symm hm
  have hh' := Ne.symm hh
  have hk' := Ne.symm hk
  have hv' := Ne.symm hv
  have hps' := Ne.symm hps
  have hns' := Ne.symm hns
  have hcs' := Ne.symm hcs
  have hgs' := Ne.symm hgs
  refine ⟨?_, ?_, ?_, ?_⟩
  · refine ⟨["--port", toString port, "--host", host, "-ngl", toString ngl, "-c",
      toString ctxLen] ++
      ((if gpuEnvVar backend ≠ "" then
          if gpuIDs.length > 1 then
            ["-mg", "0", "--tensor-split",
              joinComma (List.replicate gpuIDs.length (fmtRatio gpuIDs.length))]
          else ["-mg", toString mainGPU]
        else []) ++
        ((if cacheK ≠ "" then ["-ctk", cacheK] else []) ++
          ((if cacheV ≠ "" then ["-ctv", cacheV] else []) ++ ["--metrics"]))), ?_⟩
    simp [instArgs, List.append_assoc]
  · simp [instArgs]
  · by_cases hG : gpuEnvVar backend = ""
    · constructor
      · intro hmem
        exfalso
        by_cases hck : cacheK = "" <;> by_cases hcv : cacheV = "" <;>
          cases hbm : hasPrefixStr model "/" || hasSuffixStr model ".gguf" <;>
            simp [instArgs, hG, hbm, hck, hcv, hm', hh', hk', hv', hps', hns',
                  hcs', hgs'] at hmem
      · rintro ⟨hGne, _⟩
        exact absurd hG hGne
    · by_cases hlen : gpuIDs.length > 1
      · constructor
        · intro _
          exact ⟨hG, by omega⟩
        · intro _
          simp [instArgs, hG, hlen]
      · constructor
        · intro hmem
          exfalso
          by_cases hck : cacheK = "" <;> by_cases hcv : cacheV = "" <;>
            cases hbm : hasPrefixStr model "/" || hasSuffixStr model ".gguf" <;>
              simp [instArgs, hG, hlen, hbm, hck, hcv, hm', hh', hk', hv', hps',
                    hns', hcs', hgs'] at hmem
        · rintro ⟨_, hlen2⟩
          omega
  · rintro ⟨hG, hlen2⟩
    have hlen1 : gpuIDs.length > 1 := by omega
    refine ⟨(if hasPrefixStr model "/" || hasSuffixStr model ".gguf"
             then ["-m", model] else ["-hf", model]) ++
            ["--port", toString port, "--host", host, "-ngl", toString ngl, "-c",
             toString ctxLen],
            (if cacheK ≠ "" then ["-ctk", cacheK] else []) ++
              ((if cacheV ≠ "" then ["-ctv", cacheV] else []) ++ ["--metrics"]), ?_⟩
    simp [instArgs, hG, hlen1, List.append_assoc]

/-- Witness for C4 at the spec scenario: a remote locator, cuda backend
and three devices — the vector opens with `-hf`, contains `--metrics`,
and carries the tensor-split block. -/
theorem instArgs_spec_witness :
    "--metrics" ∈ instArgs (fun _ => "0.33") "unsloth/x" 9090 "0.0.0.0" 99 16384 0
      "q8_0" "q8_0" "CUDA_VISIBLE_DEVICES" [0, 1, 2] ∧
    "--tensor-split" ∈ instArgs (fun _ => "0.33") "unsloth/x" 9090 "0.0.0.0" 99 16384 0
      "q8_0" "q8_0" "CUDA_VISIBLE_DEVICES" [0, 1, 2] := by
  have h := instArgs_spec (fun _ => "0.33") "unsloth/x" 9090 "0.0.0.0" 99 16384 0
      "q8_0" "q8_0" "cuda" "CUDA_VISIBLE_DEVICES" [0, 1, 2] (by decide) (by decide)
      (by decide) (by decide) (by decide) (by decide) (by decide) (by decide) (by decide)
  exact ⟨h.2.1, h.2.2.1.mpr ⟨by decide, by decide⟩⟩

/-- Helper: `add` keeps the declared capacity. -/
theorem ringBuffer_add_size (rb : RingBuffer) (x : String) : (rb.add x).size = rb.size := by
  simp only [RingBuffer.add]
  split <;> rfl

/-- Helper: `add` preserves well-formedness. -/
theorem ringBuffer_add_wf {rb : RingBuffer} (h : rb.Wf) (x : String) : (rb.add x).Wf := by
  obtain ⟨buf, size, pos, full⟩ := rb
  obtain ⟨hlen, hpos⟩ := h
  simp only at hlen hpos
  by_cases hwrap : pos + 1 ≥ size
  · have hadd : RingBuffer.add ⟨buf, size, pos, full⟩ x = ⟨buf.set pos x, size, 0, true⟩ := by
      simp [RingBuffer.add, hwrap]
    rw [hadd]
    show (buf.set pos x).length = size ∧ 0 < size
    exact ⟨by simpa using hlen, by omega⟩
  · have hadd : RingBuffer.add ⟨buf, size, pos, full⟩ x =
        ⟨buf.set pos x, size, pos + 1, full⟩ := by
      simp [RingBuffer.add, hwrap]
    rw [hadd]
    show (buf.set pos x).length = size ∧ pos + 1 < size
    exact ⟨by simpa using hlen, by omega⟩

/-- Helper: one `add` on a well-formed buffer appends the new line to the
snapshot, evicting the oldest line exactly when the snapshot already
fills the capacity. -/
theorem ringBuffer_snapshot_add {rb : RingBuffer} (h : rb.Wf) (x : String) :
    (rb.add x).snapshot =
      (if rb.size ≤ rb.snapshot.length then rb.snapshot.drop 1 else rb.snapshot) ++ [x] := by
  obtain ⟨buf, size, pos, full⟩ := rb
  obtain ⟨hlen, hpos⟩ := h
  simp only at hlen hpos
  dsimp only
  have hset : buf.set pos x = buf.take pos ++ x :: buf.drop (pos + 1) :=
    List.set_eq_take_cons_drop x (by omega)
  have htklen : (buf.take pos).length = pos := by
    rw [List.length_take]
    omega
  cases full with
  | false =>
    have hR : (RingBuffer.snapshot ⟨buf, size, pos, false⟩) = buf.take pos := rfl
    by_cases hwrap : pos + 1 ≥ size
    · have hadd : RingBuffer.add ⟨buf, size, pos, false⟩ x = ⟨buf.set pos x, size, 0, true⟩ := by
        simp [RingBuffer.add, hwrap]
      have hdropnil : buf.drop (pos + 1) = [] := List.drop_eq_nil_of_le (by omega)
      have hL : (RingBuffer.add ⟨buf, size, pos, false⟩ x).snapshot = buf.take pos ++ [x] := by
        rw [hadd]
        show (buf.set pos x).drop 0 ++ (buf.set pos x).take 0 = _
        simp [hset, hdropnil]
      rw [hL, hR, htklen, if_neg (by omega)]
    · have hadd : RingBuffer.add ⟨buf, size, pos, false⟩ x =
          ⟨buf.set pos x, size, pos + 1, false⟩ := by
        simp [RingBuffer.add, hwrap]
      have hL : (RingBuffer.add ⟨buf, size, pos, false⟩ x).snapshot = buf.take pos ++ [x] := by
        rw [hadd]
        show (buf.set pos x).take (pos + 1) = _
        rw [hset, List.take_append_eq_append_take, htklen, List.take_take]
        have h1 : min (pos + 1) pos = pos := by omega
        have h2 : pos + 1 - pos = 1 := by omega
        rw [h1, h2]
        simp
      rw [hL, hR, htklen, if_neg (by omega)]
  | true =>
    have hR : (RingBuffer.snapshot ⟨buf, size, pos, true⟩) = buf.drop pos ++ buf.take pos := rfl
    have hRlen : (buf.drop pos ++ buf.take pos).length = size := by
      simp only [List.length_append, List.length_drop]
      omega
    have hdc : buf.drop pos = buf[pos] :: buf.drop (pos + 1) :=
      List.drop_eq_getElem_cons (by omega)
    have hdrop1 : (buf.drop pos ++ buf.take pos).drop 1 = buf.drop (pos + 1) ++ buf.take pos := by
      rw [hdc]
      rfl
    by_cases hwrap : pos + 1 ≥ size
    · have hadd : RingBuffer.add ⟨buf, size, pos, true⟩ x = ⟨buf.set pos x, size, 0, true⟩ := by
        simp [RingBuffer.add, hwrap]
      have hdropnil : buf.drop (pos + 1) = [] := List.drop_eq_nil_of_le (by omega)
      have hL : (RingBuffer.add ⟨buf, size, pos, true⟩ x).snapshot = buf.take pos ++ [x] := by
        rw [hadd]
        show (buf.set pos x).drop 0 ++ (buf.set pos x).take 0 = _
        simp [hset, hdropnil]
      rw [hL, hR, hRlen, if_pos (le_refl _), hdrop1, hdropnil]
      simp
    · have hadd : RingBuffer.add ⟨buf, size, pos, true⟩ x =
          ⟨buf.set pos x, size, pos + 1, true⟩ := by
        simp [RingBuffer.add, hwrap]
      have hL : (RingBuffer.add ⟨buf, size, pos, true⟩ x).snapshot =
          buf.drop (pos + 1) ++ (buf.take pos ++ [x]) := by
        rw [hadd]
        show (buf.set pos x).drop (pos + 1) ++ (buf.set pos x).take (pos + 1) = _
        rw [hset, List.drop_append_eq_append_drop, List.take_append_eq_append_take, htklen]
        have h1 : pos + 1 - pos = 1 := by omega
        have h2 : (buf.take pos).drop (pos + 1) = [] :=
          List.drop_eq_nil_of_le (by rw [htklen]; omega)
        have h3 : min (pos + 1) pos = pos := by omega
        rw [h1, h2, List.take_take, h3]
        simp
      rw [hL, hR, hRlen, if_pos (le_refl _), hdrop1]
      simp [List.append_assoc]

/-- Helper: appending a batch one line at a time, unrolled on the left. -/
theorem ringBuffer_addAll_cons (rb : RingBuffer) (x : String) (xs : List String) :
    rb.addAll (x :: xs) = (rb.add x).addAll xs := rfl

/-- Helper: appending a batch, unrolled on the right. -/
theorem ringBuffer_addAll_append (rb : RingBuffer) (xs : List String) (x : String) :
    rb.addAll (xs ++ [x]) = (rb.addAll xs).add x := by
  simp [RingBuffer.addAll, List.foldl_append]

/-- Helper: `addAll` preserves well-formedness. -/
theorem ringBuffer_addAll_wf {rb : RingBuffer} (h : rb.Wf) (xs : List String) :
    (rb.addAll xs).Wf := by
  induction xs generalizing rb with
  | nil => exact h
  | cons y ys ih => exact ih (ringBuffer_add_wf h y)

/-- Helper: `addAll` keeps the declared capacity. -/
theorem ringBuffer_addAll_size (rb : RingBuffer) (xs : List String) :
    (rb.addAll xs).size = rb.size := by
  induction xs generalizing rb with
  | nil => rfl
  | cons y ys ih => rw [ringBuffer_addAll_cons, ih, ringBuffer_add_size]

/-- C7: after appending the lines of `xs` to a fresh ring buffer of
capacity `C > 0`, the snapshot is exactly the last `min (length xs) C`
lines in insertion order, oldest first — that is, `xs` with its first
`length xs - C` entries dropped — and its length is `min (length xs) C`. -/
theorem ringBuffer_snapshot_spec (C : Nat) (hC : 0 < C) (xs : List String) :
    ((newRingBuffer C).addAll xs).snapshot = xs.drop (xs.length - C) ∧
    ((newRingBuffer C).addAll xs).snapshot.length = min xs.length C := by
  have hwfnew : (newRingBuffer C).Wf :=
    ⟨by simp [newRingBuffer], by simpa [newRingBuffer] using hC⟩
  have main : ∀ ys : List String,
      ((newRingBuffer C).addAll ys).snapshot = ys.drop (ys.length - C) := by
    intro ys
    induction ys using List.reverseRecOn with
    | nil => simp [RingBuffer.addAll, newRingBuffer, RingBuffer.snapshot]
    | append_singleton ys y ih =>
      rw [ringBuffer_addAll_append,
          ringBuffer_snapshot_add (ringBuffer_addAll_wf hwfnew ys) y, ih]
      have hsz : ((newRingBuffer C).addAll ys).size = C := by
        rw [ringBuffer_addAll_size]
        rfl
      rw [hsz]
      by_cases hcase : C ≤ ys.length
      · have hdl : (ys.drop (ys.length - C)).length = C := by
          rw [List.length_drop]
          omega
        rw [if_pos (by rw [hdl]), List.drop_drop]
        have h1 : ys.length - C + 1 = ys.length + 1 - C := by omega
        have h2 : ys.length + 1 - C ≤ ys.length := by omega
        simp only [List.length_append, List.length_singleton]
        rw [h1, List.drop_append_of_le_length h2]
      · have h0 : ys.length - C = 0 := by omega
        rw [h0, List.drop_zero, if_neg (by omega)]
        have h1 : (ys ++ [y]).length - C = 0 := by
          simp only [List.length_append, List.length_singleton]
          omega
        rw [h1, List.drop_zero]
  refine ⟨main xs, ?_⟩
  rw [main xs, List.length_drop]
  omega

/-- Witness for C7: capacity 2 with three appends keeps the last two
lines in order. -/
theorem ringBuffer_snapshot_spec_witness :
    ((newRingBuffer 2).addAll ["a", "b", "c"]).snapshot = ["b", "c"] := by
  have h := (ringBuffer_snapshot_spec 2 (by decide) ["a", "b", "c"]).1
  simpa using h

end LlamaMgr
